import Mathlib

/-!
Shallow embedding of `src/clients/discord/voice.ts` (class `VoiceManager`).

Bytes are modelled as `Nat`, buffers as `List Nat`, Node `Buffer[]` arrays
as `List (List Nat)`, and millisecond timestamps as `Nat`.
-/

namespace Voice

/-! ### Silence-segmented buffering monitor
Embedding of the per-chunk callback that `handleUserStream` installs on the
`AudioMonitor` (voice.ts lines 81-98): mutable locals `buffers`,
`totalLength`, `lastChunkTime`, constants `maxSilenceTime = 500` and the
literal `1000000` size threshold. -/

/-- `maxSilenceTime` from voice.ts line 83 (milliseconds). -/
def maxSilenceTime : Nat := 500

/-- The literal `1000000` size threshold from voice.ts line 94 (bytes). -/
def maxUtteranceBytes : Nat := 1000000

/-- The mutable locals of `handleUserStream`'s chunk callback. -/
structure MonitorState where
  buffers : List (List Nat)
  totalLength : Nat
  lastChunkTime : Nat
deriving Repr, DecidableEq

/-- Initial state: `buffers = []`, `totalLength = 0`,
`lastChunkTime = Date.now()` at the time `handleUserStream` runs
(voice.ts lines 81-84); `t0` is that creation timestamp. -/
def initState (t0 : Nat) : MonitorState := ⟨[], 0, t0⟩

/-- Node's `Buffer.concat(bs, n)`: allocates `n` bytes, copies the buffers
in order, truncating at `n` and leaving any remainder zero-filled. -/
def bufferConcat (bs : List (List Nat)) (n : Nat) : List Nat :=
  (bs.flatten ++ List.replicate (n - bs.flatten.length) 0).take n

/-- One invocation of the chunk callback (voice.ts lines 86-98): compute the
silence gap, push the chunk, bump the total, stamp the arrival time, then
flush (concatenate and reset) when the gap exceeds `maxSilenceTime` or the
total reaches `maxUtteranceBytes`.  Returns the new state and the flushed
utterance, if any. -/
def onChunk (s : MonitorState) (currentTime : Nat) (chunk : List Nat) :
    MonitorState × Option (List Nat) :=
  if maxSilenceTime < currentTime - s.lastChunkTime
      ∨ maxUtteranceBytes ≤ s.totalLength + chunk.length then
    (⟨[], 0, currentTime⟩,
     some (bufferConcat (s.buffers ++ [chunk]) (s.totalLength + chunk.length)))
  else
    (⟨s.buffers ++ [chunk], s.totalLength + chunk.length, currentTime⟩, none)

/-- Run the monitor over a sequence of `(arrivalTime, chunk)` events,
collecting the flushed utterances in order. -/
def runMonitor (s : MonitorState) : List (Nat × List Nat) → MonitorState × List (List Nat)
  | [] => (s, [])
  | (t, c) :: rest =>
    ((runMonitor (onChunk s t c).1 rest).1,
     (onChunk s t c).2.toList ++ (runMonitor (onChunk s t c).1 rest).2)

lemma onChunk_flush (s : MonitorState) (t : Nat) (c : List Nat)
    (h : maxSilenceTime < t - s.lastChunkTime
      ∨ maxUtteranceBytes ≤ s.totalLength + c.length) :
    onChunk s t c = (⟨[], 0, t⟩,
      some (bufferConcat (s.buffers ++ [c]) (s.totalLength + c.length))) := by
  unfold onChunk
  rw [if_pos h]

lemma onChunk_no_flush (s : MonitorState) (t : Nat) (c : List Nat)
    (h : ¬ (maxSilenceTime < t - s.lastChunkTime
      ∨ maxUtteranceBytes ≤ s.totalLength + c.length)) :
    onChunk s t c =
      (⟨s.buffers ++ [c], s.totalLength + c.length, t⟩, none) := by
  unfold onChunk
  rw [if_neg h]

/-- Bookkeeping invariant of the callback's locals: `totalLength` equals the
total size of the buffered chunks. -/
def monitorInv (s : MonitorState) : Prop :=
  s.totalLength = (s.buffers.map List.length).sum

instance (s : MonitorState) : Decidable (monitorInv s) := by
  unfold monitorInv; infer_instance

/-- All inter-arrival gaps (measured from `prev`, the previous arrival or the
monitor's creation time) are at most `maxSilenceTime`. -/
def gapsOk (prev : Nat) : List (Nat × List Nat) → Bool
  | [] => true
  | (t, _) :: rest => decide (t - prev ≤ maxSilenceTime) && gapsOk t rest

/-- Total number of bytes carried by a sequence of chunk events. -/
def totalSize (events : List (Nat × List Nat)) : Nat :=
  (events.map (fun e => e.2.length)).sum

lemma bufferConcat_eq_flatten (bs : List (List Nat)) (n : Nat)
    (h : n = bs.flatten.length) : bufferConcat bs n = bs.flatten := by
  subst h
  simp [bufferConcat]

lemma monitorInv_initState (t0 : Nat) : monitorInv (initState t0) := by
  simp [monitorInv, initState]

lemma monitorInv_onChunk (s : MonitorState) (t : Nat) (c : List Nat)
    (h : monitorInv s) : monitorInv (onChunk s t c).1 := by
  unfold onChunk
  split
  · simp [monitorInv]
  · simpa [monitorInv, h] using h ▸ rfl

lemma monitorInv_runMonitor (s : MonitorState) (events : List (Nat × List Nat))
    (h : monitorInv s) : monitorInv (runMonitor s events).1 := by
  induction events generalizing s with
  | nil => simpa [runMonitor] using h
  | cons e rest ih =>
    obtain ⟨t, c⟩ := e
    simpa [runMonitor] using ih _ (monitorInv_onChunk s t c h)

lemma bufferConcat_length (bs : List (List Nat)) (n : Nat) :
    (bufferConcat bs n).length = n := by
  simp [bufferConcat]
  omega

/-- Claim C1: when a chunk's arrival makes the accumulated total reach
`maxUtteranceBytes`, the monitor flushes at that very chunk, the flushed
buffer is the exact in-order concatenation of every chunk buffered since the
previous flush (the arriving chunk included), and the accumulator resets. -/
theorem crossing_chunk_flushes_exact_concat (s : MonitorState) (t : Nat)
    (c : List Nat) (hinv : monitorInv s)
    (hcross : maxUtteranceBytes ≤ s.totalLength + c.length) :
    (onChunk s t c).2 = some ((s.buffers ++ [c]).flatten) ∧
    (onChunk s t c).1.buffers = [] ∧ (onChunk s t c).1.totalLength = 0 := by
  have hlen : s.totalLength + c.length = ((s.buffers ++ [c]).flatten).length := by
    simp [monitorInv] at hinv
    simp [hinv]
  unfold onChunk
  rw [if_pos (Or.inr hcross : maxSilenceTime < t - s.lastChunkTime
    ∨ maxUtteranceBytes ≤ s.totalLength + c.length)]
  refine ⟨?_, ?_, ?_⟩
  · rw [bufferConcat_eq_flatten _ _ hlen]
  · trivial
  · trivial

theorem crossing_chunk_flushes_exact_concat_witness :
    monitorInv ⟨[List.replicate 600000 0], 600000, 0⟩ ∧
    maxUtteranceBytes ≤
      (⟨[List.replicate 600000 0], 600000, 0⟩ : MonitorState).totalLength +
        (List.replicate 400000 1).length ∧
    (onChunk ⟨[List.replicate 600000 0], 600000, 0⟩ 100
        (List.replicate 400000 1)).2 =
      some (([List.replicate 600000 0] ++ [List.replicate 400000 1]).flatten) := by
  have h1 : monitorInv ⟨[List.replicate 600000 0], 600000, 0⟩ := by
    simp only [monitorInv, List.map_cons, List.map_nil, List.length_replicate,
      List.sum_cons, List.sum_nil]
    omega
  have h2 : maxUtteranceBytes ≤
      (⟨[List.replicate 600000 0], 600000, 0⟩ : MonitorState).totalLength +
        (List.replicate 400000 1).length := by
    simp only [maxUtteranceBytes, List.length_replicate]
    omega
  exact ⟨h1, h2, (crossing_chunk_flushes_exact_concat _ 100 _ h1 h2).1⟩

lemma totalSize_cons (t : Nat) (c : List Nat) (rest : List (Nat × List Nat)) :
    totalSize ((t, c) :: rest) = c.length + totalSize rest := by
  simp [totalSize]

lemma runMonitor_no_flush_aux (events : List (Nat × List Nat)) :
    ∀ s : MonitorState, gapsOk s.lastChunkTime events = true →
      s.totalLength + totalSize events < maxUtteranceBytes →
      (runMonitor s events).2 = [] := by
  induction events with
  | nil => intro s _ _; simp [runMonitor]
  | cons e rest ih =>
    obtain ⟨t, c⟩ := e
    intro s hgap hsize
    simp only [gapsOk, Bool.and_eq_true, decide_eq_true_eq] at hgap
    rw [totalSize_cons] at hsize
    have hcond : ¬ (maxSilenceTime < t - s.lastChunkTime ∨
        maxUtteranceBytes ≤ s.totalLength + c.length) := by
      push_neg
      exact ⟨Nat.not_lt.mp (by omega), by omega⟩
    simp only [runMonitor, onChunk, if_neg hcond, Option.toList_none,
      List.nil_append]
    exact ih ⟨s.buffers ++ [c], s.totalLength + c.length, t⟩ hgap.2
      (show s.totalLength + c.length + totalSize rest < maxUtteranceBytes by omega)

lemma onChunk_flush_requires (s : MonitorState) (t : Nat) (c : List Nat)
    (h : ((onChunk s t c).2).isSome = true) :
    maxSilenceTime < t - s.lastChunkTime ∨
      maxUtteranceBytes ≤ s.totalLength + c.length := by
  by_cases hcond : maxSilenceTime < t - s.lastChunkTime ∨
      maxUtteranceBytes ≤ s.totalLength + c.length
  · exact hcond
  · simp only [onChunk, if_neg hcond, Option.isSome_none] at h
    cases h

/-- Claim C2 counterexample: a single 1-byte chunk arriving 600 ms after the
monitor is created has no inter-arrival gap at all (there is only one chunk)
and a total far below 1,000,000 bytes, yet the code flushes it: the gap test
also runs against the monitor's creation time, not only between chunks. -/
theorem silence_from_start_flushes_counterexample :
    totalSize [(600, [42])] < maxUtteranceBytes ∧
    (runMonitor (initState 0) [(600, [42])]).2 = [[42]] := by decide

/-- Claim C2 (amended): if every gap — the gap from the monitor's creation to
the first chunk included — is at most 500 ms and the accumulated total stays
below 1,000,000 bytes, no utterance is flushed; and any flush requires a gap
greater than 500 ms or an accumulated total of at least 1,000,000 bytes. -/
theorem no_flush_when_gaps_and_size_bounded (s : MonitorState)
    (events : List (Nat × List Nat))
    (hgap : gapsOk s.lastChunkTime events = true)
    (hsize : s.totalLength + totalSize events < maxUtteranceBytes) :
    (runMonitor s events).2 = [] ∧
    ∀ s' t c, ((onChunk s' t c).2).isSome = true →
      maxSilenceTime < t - s'.lastChunkTime ∨
        maxUtteranceBytes ≤ s'.totalLength + c.length :=
  ⟨runMonitor_no_flush_aux events s hgap hsize, onChunk_flush_requires⟩

theorem no_flush_when_gaps_and_size_bounded_witness :
    gapsOk (initState 0).lastChunkTime [(100, [1]), (300, [2, 3])] = true ∧
    (initState 0).totalLength + totalSize [(100, [1]), (300, [2, 3])]
      < maxUtteranceBytes ∧
    (runMonitor (initState 0) [(100, [1]), (300, [2, 3])]).2 = [] := by
  refine ⟨by decide, by decide, ?_⟩
  exact (no_flush_when_gaps_and_size_bounded (initState 0)
    [(100, [1]), (300, [2, 3])] (by decide) (by decide)).1

/-! The spec's scenario (C3): chunks of 300000, 300000, 300000 and 150000
bytes arriving 50 ms apart. -/

def chunkA : List Nat := List.replicate 300000 0
def chunkB : List Nat := List.replicate 300000 1
def chunkC : List Nat := List.replicate 300000 2
def chunkD : List Nat := List.replicate 150000 3

/-- The arrival schedule of the scenario: monitor created at time 0, chunks
at 50 ms intervals. -/
def scenarioEvents : List (Nat × List Nat) :=
  [(50, chunkA), (100, chunkB), (150, chunkC), (200, chunkD)]

lemma chunkA_length : chunkA.length = 300000 := by
  simp only [chunkA, List.length_replicate]

lemma chunkB_length : chunkB.length = 300000 := by
  simp only [chunkB, List.length_replicate]

lemma chunkC_length : chunkC.length = 300000 := by
  simp only [chunkC, List.length_replicate]

lemma chunkD_length : chunkD.length = 150000 := by
  simp only [chunkD, List.length_replicate]

lemma scenario_concat_abstract (A B C D : List Nat)
    (h : A.length + B.length + C.length + D.length = 1050000) :
    bufferConcat [A, B, C, D] 1050000 = A ++ B ++ C ++ D := by
  rw [bufferConcat_eq_flatten]
  · simp only [List.flatten_cons, List.flatten_nil, List.append_nil,
      List.append_assoc]
  · simp only [List.flatten_cons, List.flatten_nil, List.append_nil,
      List.length_append]
    omega

lemma scenario_run_abstract (A B C D : List Nat)
    (hA : A.length = 300000) (hB : B.length = 300000)
    (hC : C.length = 300000) (hD : D.length = 150000) :
    runMonitor (initState 0) [(50, A), (100, B), (150, C), (200, D)]
      = (⟨[], 0, 200⟩, [A ++ B ++ C ++ D]) := by
  have h1 : onChunk (initState 0) 50 A = (⟨[A], 300000, 50⟩, none) := by
    rw [onChunk_no_flush _ _ _
      (by simp only [initState, hA, maxSilenceTime, maxUtteranceBytes]; omega)]
    simp only [initState, List.nil_append, hA]
  have h2 : onChunk ⟨[A], 300000, 50⟩ 100 B
      = (⟨[A, B], 600000, 100⟩, none) := by
    rw [onChunk_no_flush _ _ _
      (by simp only [hB, maxSilenceTime, maxUtteranceBytes]; omega)]
    simp only [List.cons_append, List.nil_append, hB]
  have h3 : onChunk ⟨[A, B], 600000, 100⟩ 150 C
      = (⟨[A, B, C], 900000, 150⟩, none) := by
    rw [onChunk_no_flush _ _ _
      (by simp only [hC, maxSilenceTime, maxUtteranceBytes]; omega)]
    simp only [List.cons_append, List.nil_append, hC]
  have h4 : onChunk ⟨[A, B, C], 900000, 150⟩ 200 D
      = (⟨[], 0, 200⟩, some (A ++ B ++ C ++ D)) := by
    rw [onChunk_flush _ _ _
      (by simp only [hD, maxSilenceTime, maxUtteranceBytes]; omega)]
    simp only [List.cons_append, List.nil_append, hD]
    rw [show (900000 + 150000 : Nat) = 1050000 from rfl,
      scenario_concat_abstract A B C D (by omega)]
  simp only [runMonitor, h1, h2, h3, h4, Option.toList_some,
    Option.toList_none, List.nil_append, List.append_nil]

/-- Claim C3 counterexample: running the scenario's four chunks (50 ms
apart, no gap anywhere near 500 ms) already produces the flush, and the
flushed utterance holds 1,050,000 bytes, not 950,000: the flush is
triggered by the size condition at chunk D, not by the later silence. -/
theorem scenario_flush_size_counterexample :
    gapsOk 0 scenarioEvents = true ∧
    ((runMonitor (initState 0) scenarioEvents).2).map List.length
      = [1050000] ∧ (1050000 : Nat) ≠ 950000 := by
  refine ⟨by decide, ?_, by decide⟩
  show ((runMonitor (initState 0)
    [(50, chunkA), (100, chunkB), (150, chunkC), (200, chunkD)]).2).map
      List.length = [1050000]
  rw [scenario_run_abstract chunkA chunkB chunkC chunkD chunkA_length
    chunkB_length chunkC_length chunkD_length]
  simp only [List.map_cons, List.map_nil, List.length_append, chunkA_length,
    chunkB_length, chunkC_length, chunkD_length]

/-- Claim C3 (amended): with the scenario's chunks arriving 50 ms apart, the
monitor flushes exactly one utterance, equal to the in-order concatenation
A++B++C++D (1,050,000 bytes), at chunk D's arrival; the trigger is the size
condition — every gap in the run is at most 500 ms, so the silence condition
never fires — and the accumulator is left empty, so the subsequent 600 ms
without chunks (which produces no callback at all) flushes nothing more. -/
theorem scenario_abcd_flushes_by_size :
    (runMonitor (initState 0) scenarioEvents).2
      = [chunkA ++ chunkB ++ chunkC ++ chunkD] ∧
    (runMonitor (initState 0) scenarioEvents).1
      = (⟨[], 0, 200⟩ : MonitorState) ∧
    gapsOk 0 scenarioEvents = true := by
  have hrun := scenario_run_abstract chunkA chunkB chunkC chunkD chunkA_length
    chunkB_length chunkC_length chunkD_length
  refine ⟨?_, ?_, by decide⟩
  · show ((runMonitor (initState 0)
      [(50, chunkA), (100, chunkB), (150, chunkC), (200, chunkD)]).2)
        = [chunkA ++ chunkB ++ chunkC ++ chunkD]
    rw [hrun]
  · show ((runMonitor (initState 0)
      [(50, chunkA), (100, chunkB), (150, chunkC), (200, chunkD)]).1)
        = (⟨[], 0, 200⟩ : MonitorState)
    rw [hrun]

lemma runMonitor_conserves (events : List (Nat × List Nat)) :
    ∀ s : MonitorState, monitorInv s →
      ((runMonitor s events).2).flatten
          ++ ((runMonitor s events).1).buffers.flatten
        = s.buffers.flatten ++ (events.map Prod.snd).flatten := by
  induction events with
  | nil => intro s _; simp [runMonitor]
  | cons e rest ih =>
    obtain ⟨t, c⟩ := e
    intro s hinv
    by_cases hcond : maxSilenceTime < t - s.lastChunkTime
        ∨ maxUtteranceBytes ≤ s.totalLength + c.length
    · have hlen : s.totalLength + c.length
          = ((s.buffers ++ [c]).flatten).length := by
        simp only [monitorInv] at hinv
        simp [hinv]
      have hnext := ih ⟨[], 0, t⟩ (by simp [monitorInv])
      simp only [List.flatten_nil, List.nil_append] at hnext
      simp only [runMonitor, onChunk_flush s t c hcond, Option.toList_some,
        List.singleton_append, List.flatten_cons, List.map_cons,
        bufferConcat_eq_flatten _ _ hlen, List.flatten_append,
        List.flatten_nil, List.append_nil, List.append_assoc]
      rw [hnext]
    · have hinv' : monitorInv ⟨s.buffers ++ [c], s.totalLength + c.length, t⟩ := by
        simp only [monitorInv] at hinv ⊢
        simp [hinv]
      have hnext := ih ⟨s.buffers ++ [c], s.totalLength + c.length, t⟩ hinv'
      simp only [runMonitor, onChunk_no_flush s t c hcond, Option.toList_none,
        List.nil_append, List.map_cons, List.flatten_cons]
      rw [hnext]
      simp [List.flatten_append, List.append_assoc]

/-- Claim C10: the accumulator is reset at the moment of flush (the flushed
state always has an empty chunk list and zero total), and bytes are
conserved: over any run from a state satisfying the bookkeeping invariant,
the concatenation of all flushed utterances followed by the still-buffered
bytes equals the buffered bytes plus all delivered chunk bytes, in arrival
order — every byte ends up in exactly one flushed utterance or in the
pending buffer, with no loss and no duplication. -/
theorem flush_resets_accumulator_and_conserves_bytes :
    (∀ (s : MonitorState) (t : Nat) (c u : List Nat),
      (onChunk s t c).2 = some u →
        (onChunk s t c).1.buffers = [] ∧ (onChunk s t c).1.totalLength = 0) ∧
    (∀ (s : MonitorState) (events : List (Nat × List Nat)), monitorInv s →
      ((runMonitor s events).2).flatten
          ++ ((runMonitor s events).1).buffers.flatten
        = s.buffers.flatten ++ (events.map Prod.snd).flatten) := by
  constructor
  · intro s t c u h
    by_cases hcond : maxSilenceTime < t - s.lastChunkTime
        ∨ maxUtteranceBytes ≤ s.totalLength + c.length
    · rw [onChunk_flush s t c hcond]
      exact ⟨rfl, rfl⟩
    · rw [onChunk_no_flush s t c hcond] at h
      cases h
  · intro s events hinv
    exact runMonitor_conserves events s hinv

theorem flush_resets_accumulator_and_conserves_bytes_witness :
    ((onChunk (initState 0) 600 [5]).1.buffers = []
        ∧ (onChunk (initState 0) 600 [5]).1.totalLength = 0) ∧
    ((runMonitor (initState 0) [(600, [5]), (700, [7])]).2).flatten
        ++ ((runMonitor (initState 0) [(600, [5]), (700, [7])]).1).buffers.flatten
      = (initState 0).buffers.flatten
        ++ ([(600, [5]), (700, [7])].map Prod.snd).flatten := by
  constructor
  · exact flush_resets_accumulator_and_conserves_bytes.1 (initState 0) 600 [5]
      [5] (by decide)
  · exact flush_resets_accumulator_and_conserves_bytes.2 (initState 0)
      [(600, [5]), (700, [7])] (by decide)

/-! ### Utterance pipeline
Embedding of the `try` block inside the flush branch of `handleUserStream`
(voice.ts lines 99-152): the sequence of awaited collaborator calls, the
command-prefix check, the response-content extraction, and the `catch`
that logs and swallows every error.  Collaborator outcomes are supplied by
a `PipelineEnv`; each call is recorded as a `Step`. -/

/-- The awaited collaborator calls of the flush branch, in source order. -/
inductive Step where
  | transcribe
  | fetchBotName
  | ensureUserAgent
  | ensureUserUser
  | ensureRoom
  | ensurePartUser
  | ensurePartAgent
  | composeState
  | handleMessage
  | tts
  | playback
deriving Repr, DecidableEq

/-- The response payload of `messageManager.handleMessage`; a JS-falsy
(absent or empty) field is modelled as `""`. -/
structure ResponseMsg where
  responseMessage : String
  content : String
  message : String
deriving Repr, DecidableEq

/-- `text.startsWith("/")` (voice.ts line 122): with the one-character
prefix `"/"`, true exactly when the first character of `t` is `'/'`. -/
def startsWithSlash (t : String) : Bool :=
  match t.data with
  | [] => false
  | ch :: _ => ch = '/'

/-- `response.responseMessage || response.content || response.message`
(voice.ts lines 136-138): the first truthy field. -/
def extractContent (r : ResponseMsg) : String :=
  if r.responseMessage ≠ "" then r.responseMessage
  else if r.content ≠ "" then r.content
  else r.message

instance {ε α : Type} [DecidableEq ε] [DecidableEq α] :
    DecidableEq (Except ε α) := fun x y =>
  match x, y with
  | Except.error a, Except.error b =>
    if h : a = b then isTrue (by rw [h])
    else isFalse (by intro hh; cases hh; exact h rfl)
  | Except.ok a, Except.ok b =>
    if h : a = b then isTrue (by rw [h])
    else isFalse (by intro hh; cases hh; exact h rfl)
  | Except.error _, Except.ok _ => isFalse (by intro hh; cases hh)
  | Except.ok _, Except.error _ => isFalse (by intro hh; cases hh)

/-- Outcomes supplied by the external collaborators for one pipeline run;
`Except.error e` models the call throwing `e`. -/
structure PipelineEnv where
  transcribeRes : Except String String
  fetchBotNameRes : Except String String
  ensureUserAgentRes : Except String Unit
  ensureUserUserRes : Except String Unit
  ensureRoomRes : Except String Unit
  ensurePartUserRes : Except String Unit
  ensurePartAgentRes : Except String Unit
  composeStateRes : Except String Unit
  handleMessageRes : Except String ResponseMsg
  ttsRes : Except String Bool
deriving Repr, DecidableEq

/-- How a run of the `try` block ends when no exception escapes it. -/
inductive POutcome where
  | abortedPrefix
  | abortedEmpty
  | doneNoStream
  | donePlayed
deriving Repr, DecidableEq

/-- A collaborator call: records its `Step` and yields its outcome. -/
def stepCall {α : Type} (s : Step) (r : Except String α) :
    List Step × Except String α := ([s], r)

/-- Sequencing with an exception channel: a thrown error short-circuits the
remaining steps, exactly as an `await` throwing does inside the `try`. -/
def stepBind {α β : Type} (x : List Step × Except String α)
    (f : α → List Step × Except String β) : List Step × Except String β :=
  match x with
  | (calls, Except.error e) => (calls, Except.error e)
  | (calls, Except.ok a) => (calls ++ (f a).1, (f a).2)

/-- A pure step (no collaborator call). -/
def stepPure {α : Type} (a : α) : List Step × Except String α := ([], Except.ok a)

/-- The `try` block of the flush branch (voice.ts lines 99-148), in source
order: transcribe, fetch the bot name, the five ensure-exists upserts,
`composeState`, then the command-prefix check (`text && text.startsWith("/")`),
then `handleMessage`, content extraction (abort when falsy), `textToSpeech`,
and the playback callback when a stream was produced. -/
def pipelineBody (env : PipelineEnv) : List Step × Except String POutcome :=
  stepBind (stepCall Step.transcribe env.transcribeRes) fun text =>
  stepBind (stepCall Step.fetchBotName env.fetchBotNameRes) fun _ =>
  stepBind (stepCall Step.ensureUserAgent env.ensureUserAgentRes) fun _ =>
  stepBind (stepCall Step.ensureUserUser env.ensureUserUserRes) fun _ =>
  stepBind (stepCall Step.ensureRoom env.ensureRoomRes) fun _ =>
  stepBind (stepCall Step.ensurePartUser env.ensurePartUserRes) fun _ =>
  stepBind (stepCall Step.ensurePartAgent env.ensurePartAgentRes) fun _ =>
  stepBind (stepCall Step.composeState env.composeStateRes) fun _ =>
  if text ≠ "" ∧ startsWithSlash text then stepPure POutcome.abortedPrefix
  else
    stepBind (stepCall Step.handleMessage env.handleMessageRes) fun resp =>
    if extractContent resp = "" then stepPure POutcome.abortedEmpty
    else
      stepBind (stepCall Step.tts env.ttsRes) fun hasStream =>
      if hasStream then
        stepBind (stepCall Step.playback (Except.ok ())) fun _ =>
          stepPure POutcome.donePlayed
      else stepPure POutcome.doneNoStream

/-- The log line of the `catch` handler (voice.ts line 150). -/
def errLog (e : String) : String := "Error processing audio stream: " ++ e

/-- The whole flush branch: the `try` block wrapped in the `catch` that
logs the error and returns normally.  Yields the calls made and the log
messages emitted; there is no error channel left, matching the
fire-and-forget callback. -/
def runPipeline (env : PipelineEnv) : List Step × List String :=
  ((pipelineBody env).1,
   match (pipelineBody env).2 with
   | Except.error e => [errLog e]
   | Except.ok _ => [])

/-- The chunk callback as a whole: run the monitor step; on a flush, run the
utterance pipeline on the flushed buffer.  Returns the new monitor state,
the flushed utterance (if any) and the collaborator calls made. -/
def handleFlush (env : PipelineEnv) (s : MonitorState) (t : Nat)
    (c : List Nat) : MonitorState × Option (List Nat) × List Step :=
  match (onChunk s t c).2 with
  | none => ((onChunk s t c).1, none, [])
  | some u => ((onChunk s t c).1, some u, (runPipeline env).1)

/-- The awaited collaborator calls in the order the source performs them. -/
def canonicalSteps : List Step :=
  [Step.transcribe, Step.fetchBotName, Step.ensureUserAgent,
   Step.ensureUserUser, Step.ensureRoom, Step.ensurePartUser,
   Step.ensurePartAgent, Step.composeState, Step.handleMessage, Step.tts,
   Step.playback]

/-- An all-successful collaborator environment whose transcription result is
`t` and whose response payload is `r`. -/
def envOk (t : String) (r : ResponseMsg) : PipelineEnv :=
  ⟨Except.ok t, Except.ok "bot", Except.ok (), Except.ok (), Except.ok (),
   Except.ok (), Except.ok (), Except.ok (), Except.ok r, Except.ok false⟩

lemma transcribe_always_called (env : PipelineEnv) :
    Step.transcribe ∈ (pipelineBody env).1 := by
  obtain ⟨tr, fb, a1, a2, a3, a4, a5, cs, hm, ts⟩ := env
  rcases tr with e | t <;>
    simp [pipelineBody, stepBind, stepCall, stepPure]

lemma pipelineBody_calls_canonical (env : PipelineEnv) :
    (pipelineBody env).1 <+: canonicalSteps := by
  obtain ⟨tr, fb, a1, a2, a3, a4, a5, cs, hm, ts⟩ := env
  simp only [pipelineBody, stepBind, stepCall, stepPure]
  rcases tr with e | t
  · simp [canonicalSteps, List.cons_prefix_cons, List.nil_prefix]
  rcases fb with e | vb
  · simp [canonicalSteps, List.cons_prefix_cons, List.nil_prefix]
  rcases a1 with e | v1
  · simp [canonicalSteps, List.cons_prefix_cons, List.nil_prefix]
  rcases a2 with e | v2
  · simp [canonicalSteps, List.cons_prefix_cons, List.nil_prefix]
  rcases a3 with e | v3
  · simp [canonicalSteps, List.cons_prefix_cons, List.nil_prefix]
  rcases a4 with e | v4
  · simp [canonicalSteps, List.cons_prefix_cons, List.nil_prefix]
  rcases a5 with e | v5
  · simp [canonicalSteps, List.cons_prefix_cons, List.nil_prefix]
  rcases cs with e | v6
  · simp [canonicalSteps, List.cons_prefix_cons, List.nil_prefix]
  by_cases hpre : t ≠ "" ∧ startsWithSlash t = true
  · simp only [if_pos hpre]
    simp [canonicalSteps, List.cons_prefix_cons, List.nil_prefix]
  simp only [if_neg hpre]
  rcases hm with e | resp
  · simp [canonicalSteps, List.cons_prefix_cons, List.nil_prefix]
  by_cases hcon : extractContent resp = ""
  · simp only [if_pos hcon]
    simp [canonicalSteps, List.cons_prefix_cons, List.nil_prefix]
  simp only [if_neg hcon]
  rcases ts with e | b
  · simp [canonicalSteps, List.cons_prefix_cons, List.nil_prefix]
  cases b
  · simp [canonicalSteps, List.cons_prefix_cons, List.nil_prefix]
  · simp [canonicalSteps, List.cons_prefix_cons, List.nil_prefix]

lemma pipelineBody_error_no_playback (env : PipelineEnv) (e : String)
    (herr : (pipelineBody env).2 = Except.error e) :
    Step.playback ∉ (pipelineBody env).1 := by
  obtain ⟨tr, fb, a1, a2, a3, a4, a5, cs, hm, ts⟩ := env
  simp only [pipelineBody, stepBind, stepCall, stepPure] at herr ⊢
  rcases tr with e0 | t
  · simp
  rcases fb with e0 | vb
  · simp
  rcases a1 with e0 | v1
  · simp
  rcases a2 with e0 | v2
  · simp
  rcases a3 with e0 | v3
  · simp
  rcases a4 with e0 | v4
  · simp
  rcases a5 with e0 | v5
  · simp
  rcases cs with e0 | v6
  · simp
  by_cases hpre : t ≠ "" ∧ startsWithSlash t = true
  · simp only [if_pos hpre] at herr
    simp at herr
  simp only [if_neg hpre] at herr ⊢
  rcases hm with e0 | resp
  · simp
  by_cases hcon : extractContent resp = ""
  · simp only [if_pos hcon] at herr
    simp at herr
  simp only [if_neg hcon] at herr ⊢
  rcases ts with e0 | b
  · simp
  cases b
  · simp at herr
  · simp at herr

/-- Claim C7: every error thrown by a pipeline step (transcription, the
upserts, state composition, message handling, speech synthesis) is caught
at the pipeline boundary: the run returns normally carrying only the catch
handler's log line, the calls made form a prefix of the canonical call
order (nothing ran beyond the failing step), and playback never ran. -/
theorem pipeline_errors_caught_logged_and_stop (env : PipelineEnv)
    (e : String) (calls : List Step)
    (h : pipelineBody env = (calls, Except.error e)) :
    runPipeline env = (calls, [errLog e]) ∧
    calls <+: canonicalSteps ∧
    Step.playback ∉ calls := by
  have hcalls : calls = (pipelineBody env).1 := by rw [h]
  have herr : (pipelineBody env).2 = Except.error e := by rw [h]
  refine ⟨?_, ?_, ?_⟩
  · simp only [runPipeline, herr, hcalls]
  · rw [hcalls]
    exact pipelineBody_calls_canonical env
  · rw [hcalls]
    exact pipelineBody_error_no_playback env e herr

/-- An environment whose transcription call throws. -/
def envTranscribeBoom : PipelineEnv :=
  ⟨Except.error "boom", Except.ok "bot", Except.ok (), Except.ok (),
   Except.ok (), Except.ok (), Except.ok (), Except.ok (),
   Except.ok ⟨"", "", ""⟩, Except.ok false⟩

theorem pipeline_errors_caught_logged_and_stop_witness :
    pipelineBody envTranscribeBoom = ([Step.transcribe], Except.error "boom") ∧
    runPipeline envTranscribeBoom = ([Step.transcribe], [errLog "boom"]) := by
  have h : pipelineBody envTranscribeBoom
      = ([Step.transcribe], Except.error "boom") := by rfl
  exact ⟨h, (pipeline_errors_caught_logged_and_stop envTranscribeBoom "boom"
    [Step.transcribe] h).1⟩

/-- Claim C5 counterexample: with transcribed text `"/help"` and every
collaborator succeeding, the run does abort at the command-prefix check —
but that check sits after the agent upserts and the state composition in
the source, so those side effects have already been performed. -/
theorem slash_text_still_upserts_counterexample :
    Step.ensureUserAgent ∈ (pipelineBody (envOk "/help" ⟨"", "", ""⟩)).1 ∧
    Step.composeState ∈ (pipelineBody (envOk "/help" ⟨"", "", ""⟩)).1 ∧
    (pipelineBody (envOk "/help" ⟨"", "", ""⟩)).2
      = Except.ok POutcome.abortedPrefix := by decide

/-- Claim C5 (amended): for transcribed text beginning with `'/'`, the
pipeline aborts at the command-prefix check before dispatching the message:
`handleMessage`, speech synthesis and playback never run — but the check
sits after the upserts and `composeState`, which do run when the preceding
steps succeed. -/
theorem slash_aborts_before_dispatch (env : PipelineEnv) (t : String)
    (htr : env.transcribeRes = Except.ok t)
    (hp : startsWithSlash t = true) :
    Step.handleMessage ∉ (pipelineBody env).1 ∧
    Step.tts ∉ (pipelineBody env).1 ∧
    Step.playback ∉ (pipelineBody env).1 := by
  have hne : t ≠ "" := by
    intro h
    rw [h] at hp
    exact absurd hp (by decide)
  obtain ⟨tr, fb, a1, a2, a3, a4, a5, cs, hm, ts⟩ := env
  replace htr : tr = Except.ok t := htr
  subst htr
  simp only [pipelineBody, stepBind, stepCall, stepPure]
  rcases fb with e | vb
  · simp
  rcases a1 with e | v1
  · simp
  rcases a2 with e | v2
  · simp
  rcases a3 with e | v3
  · simp
  rcases a4 with e | v4
  · simp
  rcases a5 with e | v5
  · simp
  rcases cs with e | v6
  · simp
  simp only [if_pos (⟨hne, hp⟩ : t ≠ "" ∧ startsWithSlash t = true)]
  simp

theorem slash_aborts_before_dispatch_witness :
    (envOk "/help" ⟨"", "", ""⟩).transcribeRes = Except.ok "/help" ∧
    startsWithSlash "/help" = true ∧
    Step.handleMessage ∉ (pipelineBody (envOk "/help" ⟨"", "", ""⟩)).1 := by
  refine ⟨rfl, by decide, ?_⟩
  exact (slash_aborts_before_dispatch (envOk "/help" ⟨"", "", ""⟩) "/help"
    rfl (by decide)).1

/-- Claim C4 counterexample: a flush triggered by 600 ms of silence with an
empty chunk and zero accumulated bytes does produce an (empty) utterance,
and the transcription service is called on it: the flush branch has no
empty-utterance guard. -/
theorem empty_flush_calls_transcription_counterexample :
    (handleFlush (envOk "" ⟨"", "", ""⟩) (initState 0) 600 []).2.1
      = some [] ∧
    Step.transcribe ∈
      (handleFlush (envOk "" ⟨"", "", ""⟩) (initState 0) 600 []).2.2 := by
  decide

/-- Claim C4 (amended): a silence-gap flush with zero accumulated bytes
still produces the empty utterance and runs the pipeline on it, whose first
step is always the transcription call — the code has no empty-utterance
guard (and silence alone, with no chunk arriving, never triggers a flush,
since the flush check runs only inside the chunk callback). -/
theorem empty_silence_flush_still_calls_transcribe (env : PipelineEnv)
    (s : MonitorState) (t : Nat)
    (hgap : maxSilenceTime < t - s.lastChunkTime)
    (hempty : s.totalLength = 0) :
    (handleFlush env s t []).2.1 = some [] ∧
    Step.transcribe ∈ (handleFlush env s t []).2.2 := by
  have hflush : (onChunk s t []).2 = some [] := by
    rw [onChunk_flush s t [] (Or.inl hgap)]
    simp [bufferConcat, hempty]
  simp only [handleFlush, hflush]
  constructor
  · trivial
  · exact transcribe_always_called env

theorem empty_silence_flush_still_calls_transcribe_witness :
    maxSilenceTime < 600 - (initState 0).lastChunkTime ∧
    (initState 0).totalLength = 0 ∧
    (handleFlush (envOk "x" ⟨"", "", ""⟩) (initState 0) 600 []).2.1
      = some [] := by
  refine ⟨by decide, rfl, ?_⟩
  exact (empty_silence_flush_still_calls_transcribe (envOk "x" ⟨"", "", ""⟩)
    (initState 0) 600 (by decide) rfl).1

/-! ### Per-speaker stream registry
Embedding of `monitorMember` (voice.ts lines 214-266).  The `streams` and
`connections` maps are association lists; a fresh opus decoder is modelled
by the counter `nextDecoderId`, and the `userStream` event emission by
appending the announced decoder id to `emitted`. -/

/-- The `VoiceManager` state touched by `monitorMember`. -/
structure VMState where
  streams : List (String × Nat)
  connections : List (String × Nat)
  nextDecoderId : Nat
  emitted : List Nat
deriving Repr, DecidableEq

/-- JS `Map.set`: insert, overwriting any previous entry for the key. -/
def mapSet (m : List (String × Nat)) (k : String) (v : Nat) :
    List (String × Nat) :=
  (k, v) :: m.filter (fun p => p.1 != k)

/-- `monitorMember` (voice.ts lines 214-266).  `rlen` is the
`readableLength` of the receive stream returned by
`connection.receiver.subscribe` and `connId` the connection handle.  When
the subscription already has unread buffered data the function returns
without registering anything (lines 225-227); otherwise it creates a fresh
opus decoder, registers it in both maps, and emits the `userStream` event
carrying the new decoder (line 265). -/
def monitorMember (st : VMState) (uid : String) (rlen : Nat)
    (connId : Nat) : VMState :=
  if 0 < rlen then st
  else
    ⟨mapSet st.streams uid st.nextDecoderId,
     mapSet st.connections uid connId,
     st.nextDecoderId + 1,
     st.emitted ++ [st.nextDecoderId]⟩

/-- The registry state of a freshly constructed `VoiceManager`. -/
def vmInit : VMState := ⟨[], [], 0, []⟩

/-- Claim C6 counterexample: two successive `monitorMember` calls for the
same live user whose subscription stream has no unread buffered data
(`readableLength = 0`, as immediately after subscribing) create and
announce two decode resources — the second call is not a no-op. -/
theorem monitorMember_twice_counterexample :
    (monitorMember (monitorMember vmInit "u" 0 7) "u" 0 7).emitted
      = [0, 1] ∧
    monitorMember (monitorMember vmInit "u" 0 7) "u" 0 7
      ≠ monitorMember vmInit "u" 0 7 := by decide

/-- Claim C6 (amended): `monitorMember` is a no-op exactly when the
subscription stream reports unread buffered data (`readableLength > 0`);
with no unread data — including an immediate repeat call for the same
still-open user — it creates, registers and announces a fresh decoder,
overwriting the user's registry entry. -/
theorem monitorMember_noop_iff_unread (st : VMState) (uid : String)
    (rlen : Nat) (connId : Nat) :
    (0 < rlen → monitorMember st uid rlen connId = st) ∧
    (monitorMember st uid 0 connId).emitted
      = st.emitted ++ [st.nextDecoderId] ∧
    (monitorMember st uid 0 connId).streams.lookup uid
      = some st.nextDecoderId := by
  refine ⟨fun h => by simp [monitorMember, h], ?_, ?_⟩
  · simp [monitorMember]
  · simp [monitorMember, mapSet, List.lookup]

theorem monitorMember_noop_iff_unread_witness :
    monitorMember vmInit "u" 1 5 = vmInit ∧
    (monitorMember vmInit "u" 0 5).emitted = [] ++ [0] :=
  ⟨(monitorMember_noop_iff_unread vmInit "u" 1 5).1 (by decide),
   (monitorMember_noop_iff_unread vmInit "u" 0 5).2.1⟩

/-! ### Playback dispatcher
Embedding of `playAudioStream` (voice.ts lines 268-301). -/

/-- Observable outcome of one `playAudioStream` call: log lines emitted,
whether an audio player was created, which connection it was subscribed
to, and whether playback was started. -/
structure PlayResult where
  logs : List String
  playerCreated : Bool
  subscribedTo : Option Nat
  played : Bool
deriving Repr, DecidableEq

/-- `playAudioStream` (voice.ts lines 268-301): look up the user's
connection; when absent, log and return; otherwise create a fresh player,
subscribe it to the connection and start playback. -/
def playAudioStream (connections : List (String × Nat)) (uid : String) :
    PlayResult :=
  match connections.lookup uid with
  | none => ⟨["No connection for user " ++ uid], false, none, false⟩
  | some c => ⟨[], true, some c, true⟩

/-- Claim C8: for a user with no connection entry, `playAudioStream` only
emits the log line and creates no player; for a user with an entry, a
fresh player is created, subscribed to that connection, and started. -/
theorem playAudioStream_missing_connection (connections : List (String × Nat))
    (uid : String) :
    (connections.lookup uid = none →
      playAudioStream connections uid
        = ⟨["No connection for user " ++ uid], false, none, false⟩) ∧
    (∀ c, connections.lookup uid = some c →
      playAudioStream connections uid = ⟨[], true, some c, true⟩) := by
  constructor
  · intro h
    simp [playAudioStream, h]
  · intro c h
    simp [playAudioStream, h]

theorem playAudioStream_missing_connection_witness :
    playAudioStream [] "u7"
      = ⟨["No connection for user " ++ "u7"], false, none, false⟩ ∧
    playAudioStream [("u7", 3)] "u7" = ⟨[], true, some 3, true⟩ :=
  ⟨(playAudioStream_missing_connection [] "u7").1 rfl,
   (playAudioStream_missing_connection [("u7", 3)] "u7").2 3 (by decide)⟩

/-! ### Guild scanning
Embedding of the channel-selection loop of `scanGuild`
(voice.ts lines 156-176). -/

/-- A member of a voice channel. -/
structure Member where
  isBot : Bool
deriving Repr, DecidableEq

/-- A voice channel with its currently-present members. -/
structure Channel where
  members : List Member
deriving Repr, DecidableEq

/-- Loop body of `scanGuild` (voice.ts lines 162-171): take the channel
when it has members and either no channel is chosen yet or it has strictly
more members than the chosen one.  The count is `members.size` — bots are
not filtered out here. -/
def scanStep (chosen : Option Channel) (ch : Channel) : Option Channel :=
  match chosen with
  | none => if 0 < ch.members.length then some ch else none
  | some c =>
    if 0 < ch.members.length ∧ c.members.length < ch.members.length then
      some ch
    else some c

/-- The channel `scanGuild` ends up with (`chosenChannel`); `scanGuild`
joins it exactly when this is not `none`. -/
def chooseChannel (channels : List Channel) : Option Channel :=
  channels.foldl scanStep none

/-- Modelled from the spec: the number of currently-present non-bot
members of a channel — the spec's selection criterion ("the most
currently-present non-bot members"); the code itself never filters bots in
`scanGuild`. -/
def nonBotCount (ch : Channel) : Nat :=
  (ch.members.filter (fun m => !m.isBot)).length

/-- The largest raw member count among the channels. -/
def maxSize (channels : List Channel) : Nat :=
  channels.foldr (fun c m => max c.members.length m) 0

/-- The first channel attaining the maximal (and positive) raw member
count — the executable characterization of the loop's result. -/
def chooseChannelFirstMax (channels : List Channel) : Option Channel :=
  if maxSize channels = 0 then none
  else channels.find? (fun c => c.members.length == maxSize channels)

lemma maxSize_nil : maxSize [] = 0 := rfl

lemma maxSize_cons (ch : Channel) (rest : List Channel) :
    maxSize (ch :: rest) = max ch.members.length (maxSize rest) := rfl

lemma foldl_scanStep_some (l : List Channel) : ∀ c : Channel,
    l.foldl scanStep (some c) =
      if maxSize l ≤ c.members.length then some c
      else l.find? (fun ch => ch.members.length == maxSize l) := by
  induction l with
  | nil =>
    intro c
    rw [List.foldl_nil, if_pos (by rw [maxSize_nil]; omega)]
  | cons ch rest ih =>
    intro c
    rw [List.foldl_cons]
    rcases Nat.lt_or_ge c.members.length ch.members.length with h1 | h1
    · have hstep : scanStep (some c) ch = some ch := by
        simp only [scanStep]
        rw [if_pos ⟨by omega, h1⟩]
      rw [hstep, ih ch]
      rcases le_or_lt (maxSize rest) ch.members.length with h2 | h2
      · rw [if_pos h2, maxSize_cons, Nat.max_eq_left h2, if_neg (by omega),
          List.find?_cons_of_pos _ (by simp)]
      · rw [if_neg (by omega), maxSize_cons, Nat.max_eq_right (by omega),
          if_neg (by omega),
          List.find?_cons_of_neg _ (by simp [beq_eq_false_iff_ne]; omega)]
    · have hstep : scanStep (some c) ch = some c := by
        simp only [scanStep]
        rw [if_neg (by omega)]
      rw [hstep, ih c]
      rcases le_or_lt (maxSize rest) c.members.length with h2 | h2
      · rw [if_pos h2, maxSize_cons,
          if_pos (Nat.max_le.mpr ⟨h1, h2⟩)]
      · rw [if_neg (by omega), maxSize_cons, Nat.max_eq_right (by omega),
          if_neg (by omega),
          List.find?_cons_of_neg _ (by simp [beq_eq_false_iff_ne]; omega)]

lemma chooseChannel_eq_firstMax (channels : List Channel) :
    chooseChannel channels = chooseChannelFirstMax channels := by
  induction channels with
  | nil => rfl
  | cons ch rest ih =>
    show (rest.foldl scanStep (scanStep none ch)) = _
    by_cases h : 0 < ch.members.length
    · have hstep : scanStep none ch = some ch := by
        simp only [scanStep]
        rw [if_pos h]
      rw [hstep, foldl_scanStep_some rest ch]
      rcases le_or_lt (maxSize rest) ch.members.length with h2 | h2
      · rw [if_pos h2]
        unfold chooseChannelFirstMax
        rw [maxSize_cons, Nat.max_eq_left h2, if_neg (by omega),
          List.find?_cons_of_pos _ (by simp)]
      · rw [if_neg (by omega)]
        unfold chooseChannelFirstMax
        rw [maxSize_cons, Nat.max_eq_right (by omega), if_neg (by omega),
          List.find?_cons_of_neg _ (by simp [beq_eq_false_iff_ne]; omega)]
    · have hstep : scanStep none ch = none := by
        simp only [scanStep]
        rw [if_neg h]
      rw [hstep]
      show chooseChannel rest = _
      rw [ih]
      unfold chooseChannelFirstMax
      rw [maxSize_cons, Nat.max_eq_right (by omega)]
      by_cases hm : maxSize rest = 0
      · rw [if_pos hm, if_pos hm]
      · rw [if_neg hm, if_neg hm,
          List.find?_cons_of_neg _ (by simp [beq_eq_false_iff_ne]; omega)]

lemma maxSize_zero_iff (l : List Channel) :
    maxSize l = 0 ↔ ∀ ch ∈ l, ch.members.length = 0 := by
  induction l with
  | nil => simp [maxSize_nil]
  | cons ch rest ih =>
    rw [maxSize_cons]
    simp [Nat.max_eq_zero_iff, ih]

lemma maxSize_attained (l : List Channel) (h : maxSize l ≠ 0) :
    ∃ ch ∈ l, ch.members.length = maxSize l := by
  induction l with
  | nil => exact absurd maxSize_nil h
  | cons ch rest ih =>
    rw [maxSize_cons] at h ⊢
    rcases le_or_lt (maxSize rest) ch.members.length with h2 | h2
    · exact ⟨ch, List.mem_cons_self ch rest, by rw [Nat.max_eq_left h2]⟩
    · obtain ⟨d, hd, hlen⟩ := ih (by omega)
      exact ⟨d, List.mem_cons_of_mem _ hd,
        by rw [Nat.max_eq_right (by omega), hlen]⟩

/-- Claim C9 counterexample: with a first channel holding one bot member
and a second holding one human, `scanGuild`'s loop picks the first channel
(it counts `members.size` without filtering bots), even though the second
has strictly more non-bot members — the selection is not by non-bot
count. -/
theorem scanGuild_counts_bots_counterexample :
    chooseChannel [⟨[⟨true⟩]⟩, ⟨[⟨false⟩]⟩] = some ⟨[⟨true⟩]⟩ ∧
    (⟨[⟨false⟩]⟩ : Channel) ∈ [(⟨[⟨true⟩]⟩ : Channel), ⟨[⟨false⟩]⟩] ∧
    nonBotCount ⟨[⟨true⟩]⟩ < nonBotCount ⟨[⟨false⟩]⟩ := by decide

/-- Claim C9 (amended): `scanGuild` selects the first channel attaining
the maximal raw member count — `members.size`, bots included, ties broken
by the first channel encountered — and joins a channel exactly when some
channel has at least one member. -/
theorem scanGuild_picks_first_max_member_count (channels : List Channel) :
    chooseChannel channels = chooseChannelFirstMax channels ∧
    ((chooseChannel channels).isSome
      ↔ ∃ ch ∈ channels, 0 < ch.members.length) := by
  refine ⟨chooseChannel_eq_firstMax channels, ?_⟩
  rw [chooseChannel_eq_firstMax]
  by_cases hm : maxSize channels = 0
  · simp only [chooseChannelFirstMax, if_pos hm, Option.isSome_none]
    have hall := (maxSize_zero_iff channels).mp hm
    simp only [Bool.false_eq_true, false_iff]
    rintro ⟨ch, hch, hpos⟩
    rw [hall ch hch] at hpos
    exact absurd hpos (by omega)
  · simp only [chooseChannelFirstMax, if_neg hm]
    rw [List.find?_isSome]
    constructor
    · rintro ⟨x, hx, hpx⟩
      refine ⟨x, hx, ?_⟩
      have : x.members.length = maxSize channels := by simpa using hpx
      omega
    · rintro ⟨x, hx, hpos⟩
      obtain ⟨d, hd, hlen⟩ := maxSize_attained channels hm
      exact ⟨d, hd, by simp [hlen]⟩

end Voice
